import Mathlib

/-! Verification of the plugin filter-chain engine of `exadmin/views/base.py`
(django-exadmin).  The embedding models Python values as an inductive type,
the result of running a piece of code as a trace of observable events plus
either a returned value or a raised exception, and a plugin's hook
implementation as its declared argument-name list (what `getargspec` would
report, including `self`), its optional `priority` attribute, and its
behaviour when called.
-/

/-- Python values that can flow through the chain (enough structure for the
dict-returning hooks such as `get_context`). -/
inductive PyVal : Type
  | none
  | bool (b : Bool)
  | int (z : Int)
  | str (s : String)
  | dict (entries : List (String × PyVal))

/-- `v is None` — the identity test on line 45 of `base.py`. -/
def PyVal.isNone : PyVal → Bool
  | .none => true
  | _ => false

/-- `v is False` — the identity test against the `False` singleton used by
`init_plugin` (line 310, `if result is not False`).  Note that the Python
test is identity, so `0`, the empty string, the empty dict and `None` are
all *not* `False`. -/
def PyVal.isFalse : PyVal → Bool
  | .bool false => true
  | _ => false

/-- Exceptions the engine itself can raise. -/
inductive PyErr : Type
  | IncorrectPluginArg
  | IndexError
  deriving DecidableEq

/-- The outcome of running a computation: the ordered trace of observable
events it emitted, together with a returned value or a raised exception.
Events emitted before an exception stay in the trace (no rollback). -/
abbrev Res := List String × Except PyErr PyVal

/-- An actual argument passed to a plugin's hook callable: either an already
computed value, or the still-unevaluated continuation `func`. -/
inductive PyArg : Type
  | val (v : PyVal)
  | cont (c : Res)

/-- A plugin's hook-matching callable: `argNames` is `getargspec(fm)[0]`
(declared parameter names, `self` included), `priority` is the optional
`priority` attribute on the callable, and `call` is its behaviour, taking
the positional arguments after `self` and the keyword arguments. -/
structure FilterImpl : Type where
  argNames : List String
  priority : Option Int
  call : List PyArg → List (String × PyVal) → Res

/-- The conventional second-parameter name (`__` on line 50 of `base.py`)
that asks for the raw continuation instead of the computed result. -/
def contTok : String := "__"

/-- One stage of the chain: the body of `_inner_method` in `filter_chain`
(lines 39–50 of `base.py`) for a given `fm = filters[token]`.
`func` is the inner continuation, `args`/`kwargs` the hook-invocation
arguments forwarded down the chain. -/
def stage (fm : FilterImpl) (func : Res) (args : List PyVal)
    (kwargs : List (String × PyVal)) : Res :=
  let fargs := fm.argNames
  if fargs.length = 1 then
    -- Only self arg: evaluate the inner chain first.
    match func with
    | (tr, Except.error e) => (tr, Except.error e)
    | (tr, Except.ok result) =>
      if result.isNone then
        let r2 := fm.call [] []
        (tr ++ r2.1, r2.2)
      else
        (tr, Except.error PyErr.IncorrectPluginArg)
  else
    match fargs.get? 1 with
    | Option.none => ([], Except.error PyErr.IndexError)
    | some name2 =>
      if name2 = contTok then
        fm.call (PyArg.cont func :: args.map PyArg.val) kwargs
      else
        match func with
        | (tr, Except.error e) => (tr, Except.error e)
        | (tr, Except.ok v) =>
          let r2 := fm.call (PyArg.val v :: args.map PyArg.val) kwargs
          (tr ++ r2.1, r2.2)

/-- `_inner_method` of `filter_chain`: look up `filters[token]` and run the
stage (an out-of-range index raises `IndexError`, as Python would). -/
def inner_method (filters : List FilterImpl) (token : Nat) (func : Res)
    (args : List PyVal) (kwargs : List (String × PyVal)) : Res :=
  match filters.get? token with
  | Option.none => ([], Except.error PyErr.IndexError)
  | some fm => stage fm func args kwargs

/-- `filter_chain` with the token shifted by one so the recursion is on a
`Nat`: fuel `n` corresponds to `token = n - 1`, fuel `0` to `token == -1`,
where the chain bottoms out by invoking `func` itself. -/
def filter_chain_core (filters : List FilterImpl) :
    Nat → Res → List PyVal → List (String × PyVal) → Res
  | 0, func, _, _ => func
  | n + 1, func, args, kwargs =>
      filter_chain_core filters n (inner_method filters n func args kwargs) args kwargs

/-- `filter_chain(filters, token, func, *args, **kwargs)` (lines 35–51).
Only ever called with `token = len(filters) - 1 ≥ -1`; for `token < -1`
(where Python would recurse without bound) this model returns `func`. -/
def filter_chain (filters : List FilterImpl) (token : Int) (func : Res)
    (args : List PyVal) (kwargs : List (String × PyVal)) : Res :=
  filter_chain_core filters (token + 1).toNat func args kwargs

/-- An attribute a plugin can expose under a hook's name: a callable hook
implementation, or a non-callable value (excluded by the `callable(...)`
test on line 64). -/
inductive PlugAttr : Type
  | callable (f : FilterImpl)
  | value (v : PyVal)

/-- A plugin instance: its `init_request` behaviour (given the `request` and
`user` attributes the host sets on it just before the call, plus the call's
positional/keyword arguments, it emits a trace and returns a value — `None`
when the Python method falls off the end), and its attribute table
(`getattr(p, tag, None)`). -/
structure BaseAdminPlugin : Type where
  init_request : PyVal → PyVal → List PyVal → List (String × PyVal) → List String × PyVal
  getattr : String → Option PlugAttr

/-- The host view: what `filter_hook` needs from `self` — its active-plugin
list `self.plugins`. -/
structure BaseAdminView : Type where
  plugins : List BaseAdminPlugin

/-- The list comprehension on lines 63–64: for each active plugin exposing a
callable attribute named `tag`, the pair
`(priority-attribute-or-10, callable)` read off the callable itself. -/
def hookFilters (plugins : List BaseAdminPlugin) (tag : String) :
    List (Int × FilterImpl) :=
  plugins.filterMap fun p =>
    match p.getattr tag with
    | some (PlugAttr.callable f) => some (f.priority.getD 10, f)
    | _ => Option.none

/-- The sort key of line 65: compare pairs by their integer priority. -/
def prioLE (a b : Int × FilterImpl) : Prop := a.1 ≤ b.1

instance : DecidableRel prioLE := fun a b => inferInstanceAs (Decidable (a.1 ≤ b.1))

instance : IsTotal (Int × FilterImpl) prioLE := ⟨fun a b => le_total a.1 b.1⟩

instance : IsTrans (Int × FilterImpl) prioLE := ⟨fun _ _ _ h1 h2 => le_trans h1 h2⟩

/-- `sorted(filters, key=lambda x: x[0])` — Python's `sorted` is stable, and
any two stable sorts on the same key agree, so a stable insertion sort is a
faithful model. -/
def sortPairs (l : List (Int × FilterImpl)) : List (Int × FilterImpl) :=
  List.insertionSort prioLE l

/-- `filter_hook` (lines 53–69): `tag` is the decorated method's name,
`func` the base method with `self` already bound, so the inner base
computation is `func args kwargs`.  With a non-empty plugin list it builds
the sorted filters and runs `filter_chain(filters, len(filters)-1, ...)`;
otherwise it calls the base method directly. -/
def filter_hook (tag : String)
    (func : List PyVal → List (String × PyVal) → Res)
    (self : BaseAdminView) (args : List PyVal)
    (kwargs : List (String × PyVal)) : Res :=
  let inner : Res := func args kwargs
  match self.plugins with
  | [] => inner
  | _ :: _ =>
    let filters := (sortPairs (hookFilters self.plugins tag)).map Prod.snd
    filter_chain filters ((filters.length : Int) - 1) inner args kwargs

/-- The priority-sorted hook implementations a hook invocation will run. -/
def sortedFilters (plugins : List BaseAdminPlugin) (tag : String) :
    List FilterImpl :=
  (sortPairs (hookFilters plugins tag)).map Prod.snd

/-- Nested-onion semantics: apply the stages of `fs` with the head
outermost, bottoming out in the base computation `func`. -/
def stagesComp : List FilterImpl → Res → List PyVal → List (String × PyVal) → Res
  | [], func, _, _ => func
  | f :: fs, func, args, kwargs => stage f (stagesComp fs func args kwargs) args kwargs

/-- `BaseAdminView.init_plugin` (lines 302–312): walk the instantiated
plugins in order, set their request-scoped attributes, call `init_request`,
and keep exactly those whose result `is not False`.  Returns the combined
trace of all the `init_request` calls plus the active list. -/
def init_plugin (request user : PyVal) (base_plugins : List BaseAdminPlugin)
    (args : List PyVal) (kwargs : List (String × PyVal)) :
    List String × List BaseAdminPlugin :=
  match base_plugins with
  | [] => ([], [])
  | p :: rest =>
    let r := p.init_request request user args kwargs
    let tl := init_plugin request user rest args kwargs
    (r.1 ++ tl.1, if r.2.isFalse then tl.2 else p :: tl.2)

/-- The plugin part of `BaseAdminView.__init__` (lines 265–275): instantiate
every configured plugin class bound to the host
(`[p(self) for p in self.plugin_classes]`) and run `init_plugin`. -/
def view_init_plugins (plugin_classes : List (PyVal → BaseAdminPlugin))
    (selfRef request user : PyVal) (args : List PyVal)
    (kwargs : List (String × PyVal)) : List String × List BaseAdminPlugin :=
  let base_plugins := plugin_classes.map fun pc => pc selfRef
  init_plugin request user base_plugins args kwargs

/-- `BaseAdminView.get_context` (lines 314–316): the base computation
returns the dict with keys `admin_view` and `media`; the two values are
opaque here. -/
def get_context (admin_view media : PyVal) :
    List PyVal → List (String × PyVal) → Res :=
  fun _ _ => ([], Except.ok (PyVal.dict [("admin_view", admin_view), ("media", media)]))

/-! ### Structural lemmas about the chain -/

theorem stagesComp_append_single (fs : List FilterImpl) (f : FilterImpl)
    (func : Res) (args : List PyVal) (kwargs : List (String × PyVal)) :
    stagesComp (fs ++ [f]) func args kwargs =
      stagesComp fs (stage f func args kwargs) args kwargs := by
  induction fs with
  | nil => rfl
  | cons g gs ih => simp [stagesComp, ih]

theorem filter_chain_core_eq_stagesComp (filters : List FilterImpl) :
    ∀ n, n ≤ filters.length → ∀ func args kwargs,
      filter_chain_core filters n func args kwargs =
        stagesComp (filters.take n) func args kwargs := by
  intro n
  induction n with
  | zero => intro _ func args kwargs; rfl
  | succ n ih =>
    intro h func args kwargs
    have hn : n < filters.length := Nat.lt_of_succ_le h
    have hget : filters.get? n = some (filters.get ⟨n, hn⟩) := List.get?_eq_get hn
    calc filter_chain_core filters (n + 1) func args kwargs
        = filter_chain_core filters n (inner_method filters n func args kwargs) args kwargs := rfl
      _ = stagesComp (filters.take n) (inner_method filters n func args kwargs) args kwargs :=
          ih (Nat.le_of_lt hn) _ _ _
      _ = stagesComp (filters.take n) (stage (filters.get ⟨n, hn⟩) func args kwargs) args kwargs := by
          rw [inner_method, hget]
      _ = stagesComp (filters.take n ++ [filters.get ⟨n, hn⟩]) func args kwargs :=
          (stagesComp_append_single _ _ _ _ _).symm
      _ = stagesComp (filters.take (n + 1)) func args kwargs := by
          rw [List.take_succ]
          simp [List.getElem?_eq_getElem hn, List.get_eq_getElem]

/-- The decorated call is exactly the onion composition of the
priority-sorted stages around the base computation. -/
theorem filter_hook_eq_stagesComp (tag : String)
    (func : List PyVal → List (String × PyVal) → Res)
    (self : BaseAdminView) (args : List PyVal) (kwargs : List (String × PyVal)) :
    filter_hook tag func self args kwargs =
      stagesComp (sortedFilters self.plugins tag) (func args kwargs) args kwargs := by
  cases hp : self.plugins with
  | nil =>
    simp [filter_hook, hp, sortedFilters, hookFilters, sortPairs, List.insertionSort, stagesComp]
  | cons p ps =>
    simp only [filter_hook, hp]
    rw [filter_chain]
    have htok :
        ((((sortPairs (hookFilters (p :: ps) tag)).map Prod.snd).length : Int) - 1 + 1).toNat
          = ((sortPairs (hookFilters (p :: ps) tag)).map Prod.snd).length := by omega
    rw [htok, filter_chain_core_eq_stagesComp _ _ (le_refl _), List.take_length]
    rfl

/-! ### Stability of the priority sort -/

theorem filter_orderedInsert (k : Int) (x : Int × FilterImpl) :
    ∀ l : List (Int × FilterImpl),
      (List.orderedInsert prioLE x l).filter (fun y => decide (y.1 = k)) =
        if x.1 = k then x :: l.filter (fun y => decide (y.1 = k))
        else l.filter (fun y => decide (y.1 = k))
  | [] => by
    by_cases hx : x.1 = k <;> simp [List.orderedInsert, hx]
  | b :: l => by
    by_cases hle : prioLE x b
    · rw [List.orderedInsert, if_pos hle]
      by_cases hx : x.1 = k <;> simp [List.filter_cons, hx]
    · have hblt : b.1 < x.1 := by
        have := hle; unfold prioLE at this; omega
      rw [List.orderedInsert, if_neg hle, List.filter_cons, filter_orderedInsert k x l]
      by_cases hb : b.1 = k
      · have hx : ¬ x.1 = k := by omega
        simp [hb, hx, List.filter_cons]
      · by_cases hx : x.1 = k <;> simp [hb, hx, List.filter_cons]

/-- Python's `sorted` is stable: among pairs with any fixed priority `k`,
sorting preserves the original (attachment) order. -/
theorem filter_sortPairs (k : Int) (l : List (Int × FilterImpl)) :
    (sortPairs l).filter (fun y => decide (y.1 = k)) =
      l.filter (fun y => decide (y.1 = k)) := by
  induction l with
  | nil => rfl
  | cons x l ih =>
    show (List.orderedInsert prioLE x (List.insertionSort prioLE l)).filter
        (fun y => decide (y.1 = k)) = _
    rw [filter_orderedInsert k x (List.insertionSort prioLE l)]
    by_cases hx : x.1 = k
    · rw [if_pos hx]
      rw [show (List.insertionSort prioLE l).filter (fun y => decide (y.1 = k)) =
            l.filter (fun y => decide (y.1 = k)) from ih]
      simp [List.filter_cons, hx]
    · rw [if_neg hx]
      rw [show (List.insertionSort prioLE l).filter (fun y => decide (y.1 = k)) =
            l.filter (fun y => decide (y.1 = k)) from ih]
      simp [List.filter_cons, hx]

/-! ### Lifecycle lemmas -/

theorem init_plugin_trace (request user : PyVal) (bps : List BaseAdminPlugin)
    (args : List PyVal) (kwargs : List (String × PyVal)) :
    (init_plugin request user bps args kwargs).1 =
      (bps.map fun p => (p.init_request request user args kwargs).1).flatten := by
  induction bps with
  | nil => rfl
  | cons p rest ih => simp [init_plugin, ih]

theorem init_plugin_active (request user : PyVal) (bps : List BaseAdminPlugin)
    (args : List PyVal) (kwargs : List (String × PyVal)) :
    (init_plugin request user bps args kwargs).2 =
      bps.filter fun p => !(p.init_request request user args kwargs).2.isFalse := by
  induction bps with
  | nil => rfl
  | cons p rest ih =>
    rw [List.filter_cons]
    cases hf : (p.init_request request user args kwargs).2.isFalse <;>
      simp [init_plugin, hf, ih]

/-- Membership in the capability-registry output: exactly the pairs
`(priority-or-10, implementation)` of plugins in the list exposing a
callable attribute named `tag`. -/
theorem hookFilters_mem (plugins : List BaseAdminPlugin) (tag : String)
    (pr : Int) (f : FilterImpl) :
    (pr, f) ∈ hookFilters plugins tag ↔
      ∃ p ∈ plugins, p.getattr tag = some (PlugAttr.callable f) ∧
        pr = f.priority.getD 10 := by
  rw [hookFilters, List.mem_filterMap]
  constructor
  · rintro ⟨p, hp, hsome⟩
    refine ⟨p, hp, ?_⟩
    cases hg : p.getattr tag with
    | none => rw [hg] at hsome; cases hsome
    | some a =>
      cases a with
      | callable g =>
        rw [hg] at hsome
        simp only [Option.some.injEq, Prod.mk.injEq] at hsome
        obtain ⟨h1, h2⟩ := hsome
        subst h2
        exact ⟨rfl, h1.symm⟩
      | value v => rw [hg] at hsome; cases hsome
  · rintro ⟨p, hp, hg, hpr⟩
    exact ⟨p, hp, by rw [hg]; simp [hpr]⟩

/-! ### Concrete plugins and hosts for scenarios and witnesses -/

def resName : String := "result"

def strEmpty : String := ""

def tagGC : String := "get_context"

/-- Scenario B plugin `P1`'s `get_context` implementation: priority 5,
continuation-mode (second parameter named `__`); emits event `P1`,
calls through, then adds key `x: 1` to the resulting dict. -/
def P1impl : FilterImpl where
  argNames := ["self", contTok]
  priority := some 5
  call := fun pos _ =>
    match pos with
    | PyArg.cont (tr, Except.ok (PyVal.dict d)) :: _ =>
        (["P1"] ++ tr, Except.ok (PyVal.dict (d ++ [("x", PyVal.int 1)])))
    | PyArg.cont (tr, Except.error e) :: _ => (["P1"] ++ tr, Except.error e)
    | _ => (["P1"], Except.ok PyVal.none)

/-- Scenario B plugin `P2`'s `get_context` implementation: priority 20,
result-mode; emits event `P2` and adds key `y: 2` to the dict it is
given. -/
def P2impl : FilterImpl where
  argNames := ["self", resName]
  priority := some 20
  call := fun pos _ =>
    match pos with
    | PyArg.val (PyVal.dict d) :: _ =>
        (["P2"], Except.ok (PyVal.dict (d ++ [("y", PyVal.int 2)])))
    | _ => (["P2"], Except.ok PyVal.none)

/-- A plugin exposing `impl` as its `get_context` attribute and opting in. -/
def mkGCPlugin (impl : FilterImpl) : BaseAdminPlugin where
  init_request := fun _ _ _ _ => ([], PyVal.none)
  getattr := fun t => if t = tagGC then some (PlugAttr.callable impl) else Option.none

def plugin1 : BaseAdminPlugin := mkGCPlugin P1impl

def plugin2 : BaseAdminPlugin := mkGCPlugin P2impl

/-- Scenario B host `V` with `P1` and `P2` attached, in that order. -/
def hostV : BaseAdminView := ⟨[plugin1, plugin2]⟩

/-- Scenario B base computation: `get_context` with opaque `self` and
`media` values. -/
def ctxBase : List PyVal → List (String × PyVal) → Res :=
  get_context (PyVal.int 100) (PyVal.int 200)

/-- An observer-mode (arity-1) hook implementation: only `self` declared;
returns `3` and emits event `"obs"` when actually called. -/
def obsImpl : FilterImpl where
  argNames := ["self"]
  priority := Option.none
  call := fun _ _ => (["obs"], Except.ok (PyVal.int 3))

/-- A continuation-mode implementation used as a calling-convention
witness. -/
def cImpl : FilterImpl where
  argNames := ["self", contTok]
  priority := Option.none
  call := fun _ _ => (["c"], Except.ok PyVal.none)

/-- A result-mode implementation used as a calling-convention witness. -/
def rImpl : FilterImpl where
  argNames := ["self", resName]
  priority := some 3
  call := fun _ _ => (["r"], Except.ok PyVal.none)

/-- A plugin with no attributes at all (implements no hook), opting in. -/
def plainPlugin : BaseAdminPlugin where
  init_request := fun _ _ _ _ => ([], PyVal.none)
  getattr := fun _ => Option.none

/-- A plugin whose `init_request` explicitly returns `False` (opts out). -/
def optOutPlugin : BaseAdminPlugin where
  init_request := fun _ _ _ _ => (["optout"], PyVal.bool false)
  getattr := fun t => if t = tagGC then some (PlugAttr.callable P1impl) else Option.none

/-- A host with one active plugin that implements no hook at all. -/
def hostNoHook : BaseAdminView := ⟨[plainPlugin]⟩

/-- A base computation returning the integer `7`. -/
def baseSeven : List PyVal → List (String × PyVal) → Res :=
  fun _ _ => ([], Except.ok (PyVal.int 7))

/-! ### Claim theorems -/

/-- Claim C8: host `V` with base `get_context` returning the base dict,
plugin `P1` (priority 5, continuation-mode, adds `x: 1` after calling
through) and plugin `P2` (priority 20, result-mode, adds `y: 2` to the
result it is given): invoking the hook returns the base keys plus `y: 2`
plus `x: 1`, and the trace shows the `P1` implementation executing before
the `P2` one. -/
theorem c8_scenario_b :
    filter_hook tagGC ctxBase hostV [] [] =
      (["P1", "P2"],
       Except.ok (PyVal.dict
         [("admin_view", PyVal.int 100), ("media", PyVal.int 200),
          ("y", PyVal.int 2), ("x", PyVal.int 1)])) := rfl

/-- Claim C3: with zero active plugins implementing the hook — the
active-plugin list empty, or non-empty with no plugin exposing a callable
attribute named `tag` — invoking the hook returns exactly the base method's
result on the same receiver and arguments. -/
theorem c3_identity_property (self : BaseAdminView) (tag : String)
    (func : List PyVal → List (String × PyVal) → Res)
    (args : List PyVal) (kwargs : List (String × PyVal))
    (h : self.plugins = [] ∨
      ∀ p ∈ self.plugins, ∀ f, p.getattr tag ≠ some (PlugAttr.callable f)) :
    filter_hook tag func self args kwargs = func args kwargs := by
  rw [filter_hook_eq_stagesComp]
  rcases h with h | h
  · rw [h]; rfl
  · have hnil : hookFilters self.plugins tag = [] := by
      rw [hookFilters, List.filterMap_eq_nil_iff]
      intro p hp
      cases hg : p.getattr tag with
      | none => rfl
      | some a =>
        cases a with
        | callable f => exact absurd hg (h p hp f)
        | value v => rfl
    rw [sortedFilters, hnil]
    rfl

theorem c3_identity_property_witness :
    filter_hook tagGC baseSeven hostNoHook [] [] = baseSeven [] [] :=
  c3_identity_property hostNoHook tagGC baseSeven [] []
    (Or.inr (by
      intro p hp f hg
      have hp' : p = plainPlugin := by simpa [hostNoHook] using hp
      subst hp'
      exact Option.noConfusion hg))

/-- Claim C2: for an arity-1 (observer-mode) matched implementation, when the
inner chain returns a non-`None` value the stage raises
`IncorrectPluginArg`; when the inner chain returns `None` the stage never
raises it and the observer's own return value becomes the chain's result. -/
theorem c2_observer_mutual_exclusion (fm : FilterImpl)
    (h1 : fm.argNames.length = 1)
    (tr : List String) (args : List PyVal) (kwargs : List (String × PyVal)) :
    (∀ v : PyVal, v.isNone = false →
        stage fm (tr, Except.ok v) args kwargs =
          (tr, Except.error PyErr.IncorrectPluginArg))
    ∧ stage fm (tr, Except.ok PyVal.none) args kwargs =
        (tr ++ (fm.call [] []).1, (fm.call [] []).2) := by
  constructor
  · intro v hv
    simp [stage, h1, hv]
  · simp [stage, h1, PyVal.isNone]

theorem c2_observer_mutual_exclusion_witness :
    stage obsImpl ([], Except.ok (PyVal.int 1)) [] [] =
        ([], Except.error PyErr.IncorrectPluginArg)
    ∧ stage obsImpl ([], Except.ok PyVal.none) [] [] =
        ([] ++ (obsImpl.call [] []).1, (obsImpl.call [] []).2) :=
  ⟨(c2_observer_mutual_exclusion obsImpl rfl [] [] []).1 (PyVal.int 1) rfl,
   (c2_observer_mutual_exclusion obsImpl rfl [] [] []).2⟩

/-- Claim C9: in observer mode the engine evaluates the inner continuation
first, raises `IncorrectPluginArg` exactly when the inner result is not
`None` — so `False`, `0`, the empty string and the empty dict also trigger
it — and the error
result keeps the full trace of the already-executed inner chain (no
rollback); only when the inner result is `None` does the plugin body run,
after the inner chain's events. -/
theorem c9_observer_strictness (fm : FilterImpl) (h1 : fm.argNames.length = 1)
    (tr : List String) (args : List PyVal) (kwargs : List (String × PyVal)) :
    (∀ v : PyVal,
        stage fm (tr, Except.ok v) args kwargs =
          if v.isNone then (tr ++ (fm.call [] []).1, (fm.call [] []).2)
          else (tr, Except.error PyErr.IncorrectPluginArg))
    ∧ stage fm (tr, Except.ok (PyVal.bool false)) args kwargs =
        (tr, Except.error PyErr.IncorrectPluginArg)
    ∧ stage fm (tr, Except.ok (PyVal.int 0)) args kwargs =
        (tr, Except.error PyErr.IncorrectPluginArg)
    ∧ stage fm (tr, Except.ok (PyVal.str strEmpty)) args kwargs =
        (tr, Except.error PyErr.IncorrectPluginArg)
    ∧ stage fm (tr, Except.ok (PyVal.dict [])) args kwargs =
        (tr, Except.error PyErr.IncorrectPluginArg) := by
  constructor
  · intro v
    cases v <;> simp [stage, h1, PyVal.isNone]
  · refine ⟨?_, ?_, ?_, ?_⟩ <;> simp [stage, h1, PyVal.isNone]

theorem c9_observer_strictness_witness :
    stage obsImpl (["inner"], Except.ok (PyVal.bool false)) [] [] =
      (["inner"], Except.error PyErr.IncorrectPluginArg) :=
  (c9_observer_strictness obsImpl rfl ["inner"] [] []).2.1

/-- Claim C4: for a matched implementation of arity ≥ 2 the convention is
chosen by its second parameter name: when named `__` it receives the
uninvoked inner continuation; any other name makes the engine invoke the
inner continuation exactly once and pass the computed result (propagating
an inner exception instead); in both cases the original positional and
keyword arguments follow the continuation-or-result verbatim. -/
theorem c4_signature_modes (fm : FilterImpl) (h2 : 2 ≤ fm.argNames.length)
    (args : List PyVal) (kwargs : List (String × PyVal)) :
    (fm.argNames[1]? = some contTok → ∀ inner : Res,
        stage fm inner args kwargs =
          fm.call (PyArg.cont inner :: args.map PyArg.val) kwargs)
    ∧ ∀ s : String, fm.argNames[1]? = some s → ¬ s = contTok →
        (∀ (tr : List String) (v : PyVal),
            stage fm (tr, Except.ok v) args kwargs =
              (tr ++ (fm.call (PyArg.val v :: args.map PyArg.val) kwargs).1,
               (fm.call (PyArg.val v :: args.map PyArg.val) kwargs).2))
        ∧ ∀ (tr : List String) (e : PyErr),
            stage fm (tr, Except.error e) args kwargs = (tr, Except.error e) := by
  have hne : ¬ fm.argNames.length = 1 := by omega
  constructor
  · intro hc inner
    simp [stage, hne, hc]
  · intro s hs hsne
    constructor
    · intro tr v
      simp [stage, hne, hs, hsne]
    · intro tr e
      simp [stage, hne, hs, hsne]

theorem c4_signature_modes_witness :
    stage cImpl ([], Except.ok PyVal.none) [] [] =
        cImpl.call [PyArg.cont ([], Except.ok PyVal.none)] []
    ∧ stage rImpl (["t"], Except.ok (PyVal.int 5)) [] [] =
        (["t"] ++ (rImpl.call [PyArg.val (PyVal.int 5)] []).1,
         (rImpl.call [PyArg.val (PyVal.int 5)] []).2) :=
  ⟨(c4_signature_modes cImpl (by decide) [] []).1 rfl ([], Except.ok PyVal.none),
   ((c4_signature_modes rImpl (by decide) [] []).2 resName rfl (by decide)).1
     ["t"] (PyVal.int 5)⟩

/-- Claim C1: the hook invocation equals the onion composition of the
priority-sorted stages around the base computation; under pairwise-distinct
priorities the sorted priorities are strictly increasing, so the stage with
the lowest priority value is outermost (runs first); the continuation a
stage at position `i` wraps is exactly the chain of the stages from
position `i + 1` on; and the innermost continuation is the base computation
applied to the original arguments. -/
theorem c1_ordering (self : BaseAdminView) (tag : String)
    (func : List PyVal → List (String × PyVal) → Res)
    (args : List PyVal) (kwargs : List (String × PyVal))
    (hdist : ((hookFilters self.plugins tag).map Prod.fst).Pairwise fun a b => ¬ a = b) :
    filter_hook tag func self args kwargs =
        stagesComp (sortedFilters self.plugins tag) (func args kwargs) args kwargs
    ∧ ((sortPairs (hookFilters self.plugins tag)).map Prod.fst).Pairwise (fun a b => a < b)
    ∧ (∀ i (h : i < (sortedFilters self.plugins tag).length),
        stagesComp ((sortedFilters self.plugins tag).drop i)
            (func args kwargs) args kwargs =
          stage ((sortedFilters self.plugins tag)[i])
            (stagesComp ((sortedFilters self.plugins tag).drop (i + 1))
              (func args kwargs) args kwargs)
            args kwargs)
    ∧ stagesComp
        ((sortedFilters self.plugins tag).drop (sortedFilters self.plugins tag).length)
        (func args kwargs) args kwargs = func args kwargs := by
  refine ⟨filter_hook_eq_stagesComp tag func self args kwargs, ?_, ?_, ?_⟩
  · have hsorted : List.Sorted prioLE (sortPairs (hookFilters self.plugins tag)) :=
      List.sorted_insertionSort prioLE _
    have hle : ((sortPairs (hookFilters self.plugins tag)).map Prod.fst).Pairwise
        (fun a b => a ≤ b) :=
      List.Pairwise.map Prod.fst (fun _ _ h => h) hsorted
    have hperm : List.Perm ((sortPairs (hookFilters self.plugins tag)).map Prod.fst)
        ((hookFilters self.plugins tag).map Prod.fst) :=
      (List.perm_insertionSort prioLE _).map Prod.fst
    have hne : ((sortPairs (hookFilters self.plugins tag)).map Prod.fst).Pairwise
        (fun a b => ¬ a = b) :=
      (hperm.pairwise_iff fun h he => h he.symm).mpr hdist
    exact (hle.and hne).imp fun h => lt_of_le_of_ne h.1 h.2
  · intro i h
    rw [List.drop_eq_getElem_cons h]
    rfl
  · rw [List.drop_length]
    rfl

theorem c1_ordering_witness :
    filter_hook tagGC ctxBase hostV [] [] =
      stagesComp (sortedFilters hostV.plugins tagGC) (ctxBase [] []) [] [] :=
  (c1_ordering hostV tagGC ctxBase [] [] (by
    rw [show (hookFilters hostV.plugins tagGC).map Prod.fst = [5, 20] from rfl]
    decide)).1

/-- Claim C5: a plugin is in the active list iff its `init_request` did not
return the exact boolean `False` (returning nothing or any other value
includes it); a plugin whose `init_request` returns `False` is not in the
active list, and every hook implementation a hook invocation can match
comes from a plugin that *is* in the active list. -/
theorem c5_opt_in_out (request user : PyVal)
    (base_plugins : List BaseAdminPlugin) (args : List PyVal)
    (kwargs : List (String × PyVal)) (p : BaseAdminPlugin) :
    (p ∈ (init_plugin request user base_plugins args kwargs).2 ↔
        p ∈ base_plugins ∧
          (p.init_request request user args kwargs).2.isFalse = false)
    ∧ ((p.init_request request user args kwargs).2.isFalse = true →
        p ∉ (init_plugin request user base_plugins args kwargs).2)
    ∧ ∀ tag pr f,
        (pr, f) ∈ hookFilters (init_plugin request user base_plugins args kwargs).2 tag →
          ∃ q ∈ (init_plugin request user base_plugins args kwargs).2,
            q.getattr tag = some (PlugAttr.callable f) := by
  have hactive := init_plugin_active request user base_plugins args kwargs
  have hmem : p ∈ (init_plugin request user base_plugins args kwargs).2 ↔
      p ∈ base_plugins ∧
        (p.init_request request user args kwargs).2.isFalse = false := by
    rw [hactive, List.mem_filter]
    simp [Bool.not_eq_true']
  refine ⟨hmem, ?_, ?_⟩
  · intro hfalse hin
    have hff := (hmem.1 hin).2
    rw [hfalse] at hff
    exact Bool.noConfusion hff
  · intro tag pr f hin
    obtain ⟨q, hq, hg, _⟩ := (hookFilters_mem _ tag pr f).1 hin
    exact ⟨q, hq, hg⟩

theorem c5_opt_in_out_witness :
    optOutPlugin ∉ (init_plugin PyVal.none PyVal.none [plainPlugin, optOutPlugin] [] []).2 :=
  (c5_opt_in_out PyVal.none PyVal.none [plainPlugin, optOutPlugin] [] [] optOutPlugin).2.1 rfl

/-- Claim C6: the priority sort is stable — among matched implementations
with any equal priority value `k`, sorting preserves their original
attachment order (the order of the active-plugin list) — and its output is
sorted by priority; as a pure function it is deterministic across repeated
invocations. -/
theorem c6_stable_tie (plugins : List BaseAdminPlugin) (tag : String) (k : Int) :
    ((sortPairs (hookFilters plugins tag)).filter fun y => decide (y.1 = k)) =
        ((hookFilters plugins tag).filter fun y => decide (y.1 = k))
    ∧ List.Sorted prioLE (sortPairs (hookFilters plugins tag)) :=
  ⟨filter_sortPairs k (hookFilters plugins tag),
   List.sorted_insertionSort prioLE (hookFilters plugins tag)⟩

/-- Claim C7: a pair `(pr, f)` is matched for a hook iff some plugin in the
list exposes `f` as a callable attribute under exactly the hook's name
(absence simply excludes the plugin, with no error) and `pr` is the
callable's optional `priority` attribute, defaulting to `10` when the
attribute is missing. -/
theorem c7_capability_registry (plugins : List BaseAdminPlugin) (tag : String)
    (pr : Int) (f : FilterImpl) :
    ((pr, f) ∈ hookFilters plugins tag ↔
        ∃ p ∈ plugins, p.getattr tag = some (PlugAttr.callable f) ∧
          pr = f.priority.getD 10)
    ∧ (f.priority = Option.none → f.priority.getD 10 = 10) := by
  refine ⟨hookFilters_mem plugins tag pr f, fun h => ?_⟩
  rw [h]
  rfl

theorem c7_capability_registry_witness :
    (5, P1impl) ∈ hookFilters [plugin1] tagGC :=
  (c7_capability_registry [plugin1] tagGC 5 P1impl).1.mpr
    ⟨plugin1, List.mem_singleton.mpr rfl, rfl, rfl⟩

/-- Claim C10: the initialization pass instantiates every configured plugin
class and runs every instance's `init_request` — the combined trace is the
concatenation, in configuration order, of all the instances' traces, opted
out or not — and the active list is exactly the subsequence, in original
order, of the instantiated plugins whose `init_request` did not return the
exact boolean `False`. -/
theorem c10_init_pass (plugin_classes : List (PyVal → BaseAdminPlugin))
    (selfRef request user : PyVal) (args : List PyVal)
    (kwargs : List (String × PyVal)) :
    (view_init_plugins plugin_classes selfRef request user args kwargs).1 =
        ((plugin_classes.map fun pc => pc selfRef).map fun p =>
          (p.init_request request user args kwargs).1).flatten
    ∧ (view_init_plugins plugin_classes selfRef request user args kwargs).2 =
        (plugin_classes.map fun pc => pc selfRef).filter fun p =>
          !(p.init_request request user args kwargs).2.isFalse := by
  unfold view_init_plugins
  exact ⟨init_plugin_trace request user (plugin_classes.map fun pc => pc selfRef) args kwargs,
    init_plugin_active request user (plugin_classes.map fun pc => pc selfRef) args kwargs⟩
